import Mathlib

/-!
Verification of the nano_banana backend (rate limiter, prompt builder,
response normalizer, generation service) against its specification.

The Python sources are shallowly embedded: JSON documents become an
inductive `Json` type, Python dict/list/str operations that can raise
become functions into `Except PyExc`, and the inline response-handling
code of `GeminiService.generate_doodle` is transcribed branch by branch.
-/

/-- JSON documents, as produced by response.json() in the service. -/
inductive Json where
  | null : Json
  | bool : Bool → Json
  | num : Int → Json
  | str : String → Json
  | arr : List Json → Json
  | obj : List (String × Json) → Json

/-- Python exceptions that the embedded dict/list/str operations can raise.
All of them are caught by the except-Exception handler of generate_doodle. -/
inductive PyExc where
  | typeError : PyExc
  | keyError : PyExc
  | attributeError : PyExc
  | indexError : PyExc
deriving DecidableEq

/-- Lookup of a key in the association list of a JSON object,
first binding wins (Python dicts have unique keys, so this is faithful). -/
def pyLookup (kvs : List (String × Json)) (k : String) : Option Json :=
  match kvs.find? (fun kv => kv.1 == k) with
  | some kv => some kv.2
  | none => none

/-- Whether a JSON value is a dict that has the key k; the model of the
Python guard isinstance(x, dict) and "k" in x. -/
def Json.isDictWith (j : Json) (k : String) : Bool :=
  match j with
  | .obj kvs => kvs.any (fun kv => kv.1 == k)
  | _ => false

/-- Value of key k in a JSON dict, Json.null when absent or not a dict.
Only used under an isDictWith guard, where the default is unreachable. -/
def Json.getKey (j : Json) (k : String) : Json :=
  match j with
  | .obj kvs => (pyLookup kvs k).getD Json.null
  | _ => Json.null

/-- Whether a JSON value is a string: isinstance(x, str). -/
def Json.isStr (j : Json) : Bool :=
  match j with
  | .str _ => true
  | _ => false

/-- Boolean substring test: needle occurs contiguously inside hay. -/
def strContains (hay needle : String) : Bool :=
  hay.data.tails.any (fun t => needle.data.isPrefixOf t)

/-- Python membership test needle in j. For dicts it checks keys, for lists
it checks elements equal to the needle string, for strings it is a substring
test; on other values Python raises TypeError. -/
def pyIn (needle : String) (j : Json) : Except PyExc Bool :=
  match j with
  | .obj kvs => .ok (kvs.any (fun kv => kv.1 == needle))
  | .arr xs => .ok (xs.any (fun x =>
      match x with
      | .str t => t == needle
      | _ => false))
  | .str s => .ok (strContains s needle)
  | _ => .error .typeError

/-- Python len(j); raises TypeError on values without a length. -/
def pyLen (j : Json) : Except PyExc Nat :=
  match j with
  | .obj kvs => .ok kvs.length
  | .arr xs => .ok xs.length
  | .str s => .ok s.length
  | _ => .error .typeError

/-- Python subscript j[k] with a string key: dict lookup (KeyError when the
key is absent); lists and strings reject string subscripts with TypeError,
as does everything else. -/
def pySubscr (j : Json) (k : String) : Except PyExc Json :=
  match j with
  | .obj kvs =>
    match pyLookup kvs k with
    | some v => .ok v
    | none => .error .keyError
  | _ => .error .typeError

/-- Python subscript j[i] with a natural index: list indexing, string
indexing (yielding a one-character string), KeyError for dicts (JSON object
keys are strings, so an integer key is never present), TypeError otherwise. -/
def pyIndex (j : Json) (i : Nat) : Except PyExc Json :=
  match j with
  | .arr xs =>
    match xs.get? i with
    | some x => .ok x
    | none => .error .indexError
  | .str s =>
    match s.data.get? i with
    | some c => .ok (.str (String.mk [c]))
    | none => .error .indexError
  | .obj _ => .error .keyError
  | _ => .error .typeError

/-- Python j.get(k, d): dict lookup with a default; AttributeError when j is
not a dict. -/
def dictGetD (j : Json) (k : String) (d : Json) : Except PyExc Json :=
  match j with
  | .obj kvs => .ok ((pyLookup kvs k).getD d)
  | _ => .error .attributeError

/-- Model of Python s.split(",") on a list of characters. -/
def splitComma : List Char → List (List Char)
  | [] => [[]]
  | c :: rest =>
    if c = ',' then [] :: splitComma rest
    else
      match splitComma rest with
      | [] => [[c]]
      | h :: t => (c :: h) :: t

/-- Model of the data-URI payload extraction in generate_doodle:
s.split(",")[1] if "," in s else s.  The default argument of getD is
unreachable because a string containing a comma splits into at least two
pieces. -/
def extractDataPayload (s : String) : String :=
  if s.data.any (fun c => c == ',') then
    String.mk ((splitComma s.data).getD 1 s.data)
  else s

/-- Model of Python s.startswith(p). -/
def pyStartsWith (s p : String) : Bool :=
  p.data.isPrefixOf s.data

mutual

/-- Python str() rendering of a JSON value, used by the code only in the
substring test "image" in str(item).  Rendering of strings uses single
quotes; the rare cases where Python repr would switch quote styles are not
distinguished. -/
def Json.pyStr : Json → String
  | .null => "None"
  | .bool true => "True"
  | .bool false => "False"
  | .num n => toString n
  | .str s => "\x27" ++ s ++ "\x27"
  | .arr xs => "[" ++ pyStrItems xs ++ "]"
  | .obj kvs => "\x7b" ++ pyStrPairs kvs ++ "\x7d"

/-- Rendering of the elements of a JSON array, comma separated. -/
def pyStrItems : List Json → String
  | [] => ""
  | [x] => x.pyStr
  | x :: y :: rest => x.pyStr ++ ", " ++ pyStrItems (y :: rest)

/-- Rendering of the entries of a JSON object, comma separated. -/
def pyStrPairs : List (String × Json) → String
  | [] => ""
  | [(k, v)] => "\x27" ++ k ++ "\x27: " ++ v.pyStr
  | (k, v) :: p :: rest => "\x27" ++ k ++ "\x27: " ++ v.pyStr ++ ", " ++ pyStrPairs (p :: rest)

end

/-- Result of the response normalisation part of generate_doodle: a success
carrying base64 data, a success carrying a URL, or a failure with a reason.
The carried values are JSON because the content-list branch forwards
item["data"] and item["url"] unchecked. -/
inductive NormResult where
  | okBase64 : Json → NormResult
  | okUrl : Json → NormResult
  | fail : String → NormResult

/-- Transcription of gemini_service.py lines 113 to 161: handling of
message["images"][0].  Returns some result when one of the return
statements fires, none when execution falls through to the content
inspection.  The b64ok parameter abstracts the external library call
base64.b64decode(s[:100]): true means the call returns without raising. -/
def handleImageObj (b64ok : String → Bool) (imageObj : Json) : Option NormResult :=
  if imageObj.isDictWith "image_url" then
    let imageUrlObj := imageObj.getKey "image_url"
    let imageUrl : Json :=
      if imageUrlObj.isDictWith "url" then imageUrlObj.getKey "url"
      else if imageUrlObj.isStr then imageUrlObj
      else Json.null
    match imageUrl with
    | .str u =>
      if pyStartsWith u "data:image" then some (.okBase64 (.str (extractDataPayload u)))
      else if pyStartsWith u "http" then some (.okUrl (.str u))
      else none
    | _ => none
  else
    match imageObj with
    | .str s =>
      if pyStartsWith s "data:image" then some (.okBase64 (.str (extractDataPayload s)))
      else if b64ok (s.take 100) then some (.okBase64 (.str s))
      else none
    | _ => none

/-- Python equality test x == "t" between a JSON value and a string literal:
true exactly when x is the string t. -/
def pyEqStr (j : Json) (t : String) : Bool :=
  match j with
  | .str s => s == t
  | _ => false

/-- Transcription of the for loop of gemini_service.py lines 182 to 196:
scan the content list for the first dict whose type field equals "image" or
whose str() rendering contains "image", and return its data or url field. -/
def scanContent : List Json → Option NormResult
  | [] => none
  | item :: rest =>
    match item with
    | .obj kvs =>
      if (pyEqStr ((pyLookup kvs "type").getD Json.null) "image" ||
          strContains (Json.obj kvs).pyStr "image") then
        if (Json.obj kvs).isDictWith "data" then some (.okBase64 ((Json.obj kvs).getKey "data"))
        else if (Json.obj kvs).isDictWith "url" then some (.okUrl ((Json.obj kvs).getKey "url"))
        else scanContent rest
      else scanContent rest
    | _ => scanContent rest

/-- Transcription of gemini_service.py lines 164 to 196: the fallback
inspection of message.get("content").  none means no return statement
fired. -/
def normContent (message : Json) : Except PyExc (Option NormResult) :=
  match dictGetD message "content" Json.null with
  | .error e => .error e
  | .ok content =>
    match content with
    | .str c =>
      if pyStartsWith c "data:image" then .ok (some (.okBase64 (.str (extractDataPayload c))))
      else if pyStartsWith c "http" then .ok (some (.okUrl (.str c)))
      else .ok none
    | .arr items => .ok (scanContent items)
    | _ => .ok none

/-- Transcription of gemini_service.py lines 112 to 161: the guard
"images" in message and len(message["images"]) > 0 followed by the handling
of the first image object.  none means the branch did not return. -/
def imagesPart (b64ok : String → Bool) (message : Json) : Except PyExc (Option NormResult) :=
  match pyIn "images" message with
  | .error e => .error e
  | .ok false => .ok none
  | .ok true =>
    match pySubscr message "images" with
    | .error e => .error e
    | .ok images =>
      match pyLen images with
      | .error e => .error e
      | .ok n =>
        if 0 < n then
          match pyIndex images 0 with
          | .error e => .error e
          | .ok imageObj => .ok (handleImageObj b64ok imageObj)
        else .ok none

/-- Transcription of the guard of gemini_service.py line 107:
"choices" in result and len(result["choices"]) > 0, with Python
short-circuit evaluation. -/
def choicesNonempty (result : Json) : Except PyExc Bool :=
  match pyIn "choices" result with
  | .error e => .error e
  | .ok false => .ok false
  | .ok true =>
    match pySubscr result "choices" with
    | .error e => .error e
    | .ok choices =>
      match pyLen choices with
      | .error e => .error e
      | .ok n => .ok (decide (0 < n))

/-- Continuation of normalisation after the images branch fell through:
inspect message content, and reach the final return of line 198 when
nothing matches. -/
def contentFallback (message : Json) : Except PyExc NormResult :=
  match normContent message with
  | .error e => .error e
  | .ok (some r) => .ok r
  | .ok none => .ok (.fail "No image found in response")

/-- Transcription of gemini_service.py lines 107 to 202: normalisation of a
parsed 200-response body into an image result.  An .error value models an
exception propagating to the except handler of line 210. -/
def normalizeE (b64ok : String → Bool) (result : Json) : Except PyExc NormResult :=
  match choicesNonempty result with
  | .error e => .error e
  | .ok false => .ok (.fail "No image found in response")
  | .ok true =>
    match pySubscr result "choices" with
    | .error e => .error e
    | .ok choices =>
      match pyIndex choices 0 with
      | .error e => .error e
      | .ok choice =>
        match dictGetD choice "message" (Json.obj []) with
        | .error e => .error e
        | .ok message =>
          match imagesPart b64ok message with
          | .error e => .error e
          | .ok (some r) => .ok r
          | .ok none => contentFallback message

/-- Rendering of a value inside an f-string, Python str(): a string is
inserted verbatim, every other value through its str() form. -/
def pyFormat (j : Json) : String :=
  match j with
  | .str s => s
  | _ => j.pyStr

/-- Result dictionary returned by generate_doodle, mirroring the literal
dictionaries of gemini_service.py: a success flag, at most one of the
image_url and image_base64 keys, an optional error message, and the elapsed
generation time in seconds (modelled as a rational number). -/
structure ImageResult where
  success : Bool
  imageUrl : Option Json
  imageBase64 : Option Json
  error : Option String
  generationTime : ℚ

/-- Transcription of gemini_service.py lines 90 to 102: the error detail of
a non-200 response.  It is the response text, replaced by
error_json.get("error", {}).get("message", text) when the body parses as
JSON and that chain of calls does not raise; any exception in the inner try
is swallowed and the text is kept. -/
def errorDetail (text : String) (body : Option Json) : String :=
  match body with
  | none => text
  | some j =>
    match dictGetD j "error" (Json.obj []) with
    | .error _ => text
    | .ok ej =>
      match dictGetD ej "message" (Json.str text) with
      | .error _ => text
      | .ok v => pyFormat v

/-- Mapping of a normalisation outcome to the returned result dictionary,
with the except-Exception handler of line 210 applied to a raised
exception.  The excMsg parameter stands for the str(e) rendering of the
Python exception object, which the embedding does not reproduce. -/
def finishNorm (r : Except PyExc NormResult) (excMsg : String) (elapsed : ℚ) : ImageResult :=
  match r with
  | .ok (.okBase64 b) => ImageResult.mk true none (some b) none elapsed
  | .ok (.okUrl u) => ImageResult.mk true (some u) none none elapsed
  | .ok (.fail reason) => ImageResult.mk false none none (some reason) elapsed
  | .error _ => ImageResult.mk false none none (some ("Unexpected error: " ++ excMsg)) elapsed

/-- Transcription of gemini_service.py lines 90 to 202: handling of an
upstream HTTP response once received.  body is the parse of the response
text as JSON (none when unparseable), parseErrMsg stands for the message of
the exception raised by response.json() on an unparseable 200 body, and
excMsg for the message of an exception escaping the normalisation. -/
def handleResponse (b64ok : String → Bool) (status : Nat) (text : String)
    (body : Option Json) (parseErrMsg excMsg : String) (elapsed : ℚ) : ImageResult :=
  if status ≠ 200 then
    ImageResult.mk false none none
      (some ("API Error (" ++ toString status ++ "): " ++ errorDetail text body)) elapsed
  else
    match body with
    | none => ImageResult.mk false none none
        (some ("Unexpected error: " ++ parseErrMsg)) elapsed
    | some j => finishNorm (normalizeE b64ok j) excMsg elapsed

/-- Possible outcomes of the single upstream HTTP call of generate_doodle:
a response, a timeout of the client, or any other transport exception. -/
inductive Outcome where
  | response : Nat → String → Option Json → String → String → Outcome
  | timeout : Outcome
  | exc : String → Outcome

/-- Transcription of the outcome handling of generate_doodle
(gemini_service.py lines 88 to 215): the response path, the
httpx.TimeoutException handler and the generic exception handler.  start
and now are the two wall-clock readings time.time() of the call; every
branch carries now - start as generation_time. -/
def generate_doodle (b64ok : String → Bool) (o : Outcome) (start now : ℚ) : ImageResult :=
  match o with
  | .response status text body parseErrMsg excMsg =>
    handleResponse b64ok status text body parseErrMsg excMsg (now - start)
  | .timeout => ImageResult.mk false none none
      (some "Request timeout - generation took too long") (now - start)
  | .exc msg => ImageResult.mk false none none
      (some ("Unexpected error: " ++ msg)) (now - start)

/-- Truthiness of the optional style hint: Python if style_hint is false
for None and for the empty string. -/
def pyTruthy : Option String → Bool
  | none => false
  | some s => !s.isEmpty

/-- Leading segment of the prompt template of doodle_prompt.py, up to the
first interpolation of the occasion. -/
def promptPart1 : String :=
  "Create a creative doodle design for the company \"GoWombat\" celebrating: "

/-- Middle segment of the prompt template, between the two interpolations
of the occasion. -/
def promptPart2 : String :=
  "\n\nIMPORTANT REQUIREMENTS:\n1. The word \"GoWombat\" must be clearly visible and stylized to match the occasion\n2. Incorporate a cute wombat character or wombat-themed elements into the letters\n3. Make it in the style of Google Doodles - playful, creative, and thematic\n4. The design should be colorful, festive, and eye-catching\n5. Include visual elements related to: "

/-- Trailing segment of the prompt template, after the second interpolation
of the occasion. -/
def promptPart3 : String :=
  "\n6. Keep the overall composition balanced and readable\n7. The background should be clean (white or light colored)\n8. Make it look professional yet fun and engaging\n\nSTYLE GUIDELINES:\n- Similar to Google Doodles: creative letter transformations\n- Incorporate the occasion\x27s symbols into the lettering\n- Use vibrant, harmonious colors\n- Add small decorative elements around the main text\n- Make the wombat character interact with the letters creatively\n"

/-- Closing paragraph always appended to the prompt. -/
def promptClosing : String :=
  "\n\nGenerate a high-quality, detailed illustration suitable for a company\x27s special occasion celebration."

/-- Transcription of doodle_prompt.py create_doodle_prompt: the base
template with the occasion interpolated twice, the optional style
direction paragraph, and the closing paragraph. -/
def create_doodle_prompt (occasion : String) (styleHint : Option String) : String :=
  let basePrompt := promptPart1 ++ occasion ++ promptPart2 ++ occasion ++ promptPart3
  let basePrompt :=
    if pyTruthy styleHint then
      basePrompt ++ "\n\nADDITIONAL STYLE DIRECTION: " ++ styleHint.getD ""
    else basePrompt
  basePrompt ++ promptClosing

/-- Rate limiter configuration: rate_limit_requests and rate_limit_period
from config.py. -/
structure RateConfig where
  rateLimitRequests : Nat
  rateLimitPeriod : ℚ

/-- Pointwise update of the rate-limit storage at one client key, the model
of the dict assignment rate_limit_storage[client_ip] = value. -/
def updateStore (st : String → List ℚ) (ip : String) (v : List ℚ) : String → List ℚ :=
  fun x => if x = ip then v else st x

/-- Transcription of main.py check_rate_limit: prune the stored timestamps
of the client to those younger than the period, reject without recording
when at least rate_limit_requests remain, otherwise record the current
time and admit.  The storage maps a client to its timestamp list, with
the empty list standing for an absent key. -/
def check_rate_limit (cfg : RateConfig) (st : String → List ℚ) (clientIp : String)
    (now : ℚ) : Bool × (String → List ℚ) :=
  let pruned := (st clientIp).filter (fun t => now - t < cfg.rateLimitPeriod)
  if cfg.rateLimitRequests ≤ pruned.length then
    (false, updateStore st clientIp pruned)
  else
    (true, updateStore st clientIp (pruned ++ [now]))

/-- Sequence of admit calls: thread the storage through a list of
(client, time) pairs and collect each admission decision. -/
def admitSeq (cfg : RateConfig) : (String → List ℚ) → List (String × ℚ) →
    (String → List ℚ) × List Bool
  | st, [] => (st, [])
  | st, (ip, t) :: rest =>
    let r := check_rate_limit cfg st ip t
    let rec' := admitSeq cfg r.2 rest
    (rec'.1, r.1 :: rec'.2)

/-- An HTTP error response raised by the endpoint, as in HTTPException. -/
structure HttpError where
  statusCode : Nat
  detail : String

/-- Detail message of the 429 response of main.py line 125.  The window is
rendered as the fixed text "per hour" whatever rate_limit_period is. -/
def rateLimitDetail (cfg : RateConfig) : String :=
  "Rate limit exceeded. Maximum " ++ toString cfg.rateLimitRequests ++ " requests per hour."

/-- Transcription of the rate-limit gate of the generate_doodle endpoint
(main.py lines 120 to 126): run check_rate_limit and raise a 429 with the
fixed message on rejection. -/
def endpointGate (cfg : RateConfig) (st : String → List ℚ) (clientIp : String)
    (now : ℚ) : Option HttpError × (String → List ℚ) :=
  let r := check_rate_limit cfg st clientIp now
  if r.1 then (none, r.2)
  else (some (HttpError.mk 429 (rateLimitDetail cfg)), r.2)

/-- Payload the specification claims for a data URI: everything after the
first comma, or the whole string when there is no comma. -/
def claimedDataPayload (s : String) : String :=
  if s.data.any (fun c => c == ',') then
    String.mk ((s.data.dropWhile (fun c => c != ',')).drop 1)
  else s

/-- Payload the code actually extracts, characterised without split: the
characters strictly between the first and the second comma, or the whole
string when there is no comma. -/
def betweenCommasPayload (s : String) : String :=
  if s.data.any (fun c => c == ',') then
    String.mk (((s.data.dropWhile (fun c => c != ',')).drop 1).takeWhile (fun c => c != ','))
  else s

theorem splitComma_ne_nil (l : List Char) : splitComma l ≠ [] := by
  cases l with
  | nil => simp [splitComma]
  | cons c rest =>
    by_cases hc : c = ','
    · simp [splitComma, hc]
    · simp only [splitComma, if_neg hc]
      cases h : splitComma rest with
      | nil => simp
      | cons a t => simp

theorem headD_splitComma (l : List Char) (d : List Char) :
    (splitComma l).headD d = l.takeWhile (fun c => c != ',') := by
  induction l with
  | nil => rfl
  | cons c rest ih =>
    by_cases hc : c = ','
    · subst hc
      simp [splitComma, List.takeWhile_cons]
    · cases h : splitComma rest with
      | nil => exact absurd h (splitComma_ne_nil rest)
      | cons a t =>
        rw [h] at ih
        simp only [splitComma, if_neg hc, h, List.takeWhile_cons]
        simp only [List.headD_cons] at ih
        simp [hc, ih]

theorem getD_zero_of_ne_nil (r : List (List Char)) (d : List Char) (h : r ≠ []) :
    r.getD 0 d = r.headD d := by
  cases r with
  | nil => exact absurd rfl h
  | cons a t => rfl

theorem getD_one_splitComma (l : List Char) (d : List Char)
    (h : l.any (fun c => c == ',') = true) :
    (splitComma l).getD 1 d
      = ((l.dropWhile (fun c => c != ',')).drop 1).takeWhile (fun c => c != ',') := by
  induction l with
  | nil => simp at h
  | cons c rest ih =>
    by_cases hc : c = ','
    · subst hc
      have h2 : splitComma (',' :: rest) = [] :: splitComma rest := by
        simp [splitComma]
      have h3 : List.dropWhile (fun c => c != ',') (',' :: rest) = ',' :: rest := by
        simp [List.dropWhile_cons]
      rw [h2, h3]
      simp only [List.drop_succ_cons, List.drop_zero]
      have h1 : ([] :: splitComma rest).getD 1 d = (splitComma rest).getD 0 d := rfl
      rw [h1, getD_zero_of_ne_nil _ _ (splitComma_ne_nil rest), headD_splitComma]
    · have hrest : rest.any (fun c => c == ',') = true := by
        simp only [List.any_cons] at h
        rcases Bool.or_eq_true_iff.mp h with h1 | h1
        · exact absurd (by exact beq_iff_eq.mp h1) hc
        · exact h1
      cases hs : splitComma rest with
      | nil => exact absurd hs (splitComma_ne_nil rest)
      | cons a t =>
        have h2 : splitComma (c :: rest) = (c :: a) :: t := by
          simp only [splitComma, if_neg hc, hs]
        rw [h2]
        have h3 : ((c :: a) :: t).getD 1 d = (a :: t).getD 1 d := rfl
        rw [h3, ← hs, ih hrest]
        simp only [List.dropWhile_cons]
        have hcb : (c != ',') = true := by simp [hc]
        rw [hcb]
        simp

theorem extractDataPayload_eq (s : String) :
    extractDataPayload s = betweenCommasPayload s := by
  unfold extractDataPayload betweenCommasPayload
  by_cases h : s.data.any (fun c => c == ',') = true
  · rw [if_pos h, if_pos h, getD_one_splitComma _ _ h]
  · rw [if_neg h, if_neg h]

/-- Payload with the image in choices[0].message.images[0].image_url.url. -/
def mkImagesUrlPayload (s : String) : Json :=
  Json.obj [("choices", Json.arr [Json.obj [("message", Json.obj [("images",
    Json.arr [Json.obj [("image_url", Json.obj [("url", Json.str s)])]])])]])]

/-- Payload with the image directly as the string choices[0].message.images[0]. -/
def mkImagesStrPayload (s : String) : Json :=
  Json.obj [("choices", Json.arr [Json.obj [("message", Json.obj [("images",
    Json.arr [Json.str s])])]])]

/-- Payload with the image in choices[0].message.content as a string. -/
def mkContentPayload (s : String) : Json :=
  Json.obj [("choices", Json.arr [Json.obj [("message", Json.obj [("content",
    Json.str s)])]])]

/-- Payload whose choices[0].message is the given JSON value. -/
def mkChoicePayload (message : Json) : Json :=
  Json.obj [("choices", Json.arr [Json.obj [("message", message)]])]

example : normalizeE (fun _ => false) (mkImagesUrlPayload "data:image/png;base64,AAAA")
    = .ok (.okBase64 (.str "AAAA")) := rfl

example : normalizeE (fun _ => false) (mkContentPayload "http://x/y.png")
    = .ok (.okUrl (.str "http://x/y.png")) := rfl

/-- C1 counterexample: on a data URI whose payload itself contains a comma,
the code keeps only the segment between the first and the second comma
(Python split(",")[1]), not everything after the first comma as the claim
states. -/
theorem C1_counterexample :
    normalizeE (fun _ => false) (mkImagesUrlPayload "data:image/png;base64,AA,BB")
      = .ok (.okBase64 (.str "AA")) ∧
    claimedDataPayload "data:image/png;base64,AA,BB" = "AA,BB" ∧
    ("AA" : String) ≠ "AA,BB" := by
  refine ⟨rfl, rfl, ?_⟩
  decide

/-- C1 amended: for every image string s beginning with "data:image",
handled in images[0].image_url, in images[0] itself, or in message.content,
the extracted base64 payload is the substring of s strictly between the
first and the second comma (so for an s containing more than one comma the
payload stops before the second comma), or the whole string s when s
contains no comma; the result is Success with that payload as
imageBase64. -/
theorem C1_amended (s : String) (b64ok : String → Bool)
    (h : pyStartsWith s "data:image" = true) :
    normalizeE b64ok (mkImagesUrlPayload s) = .ok (.okBase64 (.str (betweenCommasPayload s))) ∧
    normalizeE b64ok (mkImagesStrPayload s) = .ok (.okBase64 (.str (betweenCommasPayload s))) ∧
    normalizeE b64ok (mkContentPayload s) = .ok (.okBase64 (.str (betweenCommasPayload s))) := by
  refine ⟨?_, ?_, ?_⟩ <;>
    simp [normalizeE, choicesNonempty, pyIn, pySubscr, pyLookup, pyLen, pyIndex, dictGetD,
      imagesPart, handleImageObj, Json.isDictWith, Json.getKey, Json.isStr, contentFallback,
      normContent, mkImagesUrlPayload, mkImagesStrPayload, mkContentPayload, h,
      extractDataPayload_eq]

/-- C1 witness: the amended theorem applied to a concrete data URI. -/
theorem C1_witness :
    pyStartsWith "data:image/png;base64,AAAA" "data:image" = true ∧
    normalizeE (fun _ => false) (mkImagesUrlPayload "data:image/png;base64,AAAA")
      = .ok (.okBase64 (.str (betweenCommasPayload "data:image/png;base64,AAAA"))) := by
  constructor
  · decide
  · exact (C1_amended "data:image/png;base64,AAAA" (fun _ => false) (by decide)).1

theorem pyLookup_any (kvs : List (String × Json)) (k : String) (v : Json)
    (h : pyLookup kvs k = some v) : kvs.any (fun kv => kv.1 == k) = true := by
  induction kvs with
  | nil => simp [pyLookup] at h
  | cons p rest ih =>
    by_cases hp : (p.1 == k) = true
    · simp [List.any_cons, hp]
    · simp only [pyLookup, List.find?_cons, hp] at h
      simp only [List.any_cons, hp, Bool.false_or]
      exact ih h

theorem imagesPart_of_lookup (b64ok : String → Bool) (kvs : List (String × Json))
    (imgObj : Json) (rest : List Json)
    (him : pyLookup kvs "images" = some (Json.arr (imgObj :: rest))) :
    imagesPart b64ok (Json.obj kvs) = .ok (handleImageObj b64ok imgObj) := by
  have hany := pyLookup_any _ _ _ him
  simp [imagesPart, pyIn, hany, pySubscr, him, pyLen, pyIndex]

theorem normalizeE_mkChoice_some (b64ok : String → Bool) (message : Json) (r : NormResult)
    (h : imagesPart b64ok message = .ok (some r)) :
    normalizeE b64ok (mkChoicePayload message) = .ok r := by
  simp [normalizeE, choicesNonempty, mkChoicePayload, pyIn, pySubscr, pyLookup, pyLen,
    pyIndex, dictGetD, h]

theorem normalizeE_mkChoice_none (b64ok : String → Bool) (message : Json)
    (h : imagesPart b64ok message = .ok none) :
    normalizeE b64ok (mkChoicePayload message) = contentFallback message := by
  simp [normalizeE, choicesNonempty, mkChoicePayload, pyIn, pySubscr, pyLookup, pyLen,
    pyIndex, dictGetD, h]

/-- C5: a payload on which the guard "choices" in result and
len(result["choices"]) > 0 evaluates to false without raising yields the
exact failure reason "No image found in response"; and so does any payload
whose first choice has a message on which both the images branch and the
content inspection fall through without a match. -/
theorem C5_no_image :
    (∀ (b64ok : String → Bool) (j : Json), choicesNonempty j = .ok false →
      normalizeE b64ok j = .ok (.fail "No image found in response")) ∧
    (∀ (b64ok : String → Bool) (message : Json),
      imagesPart b64ok message = .ok none →
      normContent message = .ok none →
      normalizeE b64ok (mkChoicePayload message) = .ok (.fail "No image found in response")) := by
  constructor
  · intro b64ok j h
    simp [normalizeE, h]
  · intro b64ok message h1 h2
    rw [normalizeE_mkChoice_none _ _ h1]
    simp [contentFallback, h2]

/-- C5 witness: the two no-image payloads of the specification, with empty
choices and with an empty message. -/
theorem C5_witness :
    choicesNonempty (Json.obj [("choices", Json.arr [])]) = .ok false ∧
    normalizeE (fun _ => false) (Json.obj [("choices", Json.arr [])])
      = .ok (.fail "No image found in response") ∧
    normalizeE (fun _ => false) (mkChoicePayload (Json.obj []))
      = .ok (.fail "No image found in response") :=
  ⟨rfl, C5_no_image.1 (fun _ => false) _ rfl, C5_no_image.2 (fun _ => false) (Json.obj []) rfl rfl⟩

theorem handleImageObj_none (b64ok : String → Bool) (imgObj : Json)
    (h1 : imgObj.isDictWith "image_url" = false) (h2 : imgObj.isStr = false) :
    handleImageObj b64ok imgObj = none := by
  cases imgObj with
  | str s => exact absurd h2 (by simp [Json.isStr])
  | obj kvs =>
    unfold handleImageObj
    rw [h1]
    simp
  | null => rfl
  | bool b => rfl
  | num n => rfl
  | arr xs => rfl

theorem pyLookup_filter_ne (kvs : List (String × Json)) (bad k : String) (h : k ≠ bad) :
    pyLookup (kvs.filter (fun kv => !(kv.1 == bad))) k = pyLookup kvs k := by
  induction kvs with
  | nil => rfl
  | cons p rest ih =>
    by_cases hp : (p.1 == bad) = true
    · have hk : (p.1 == k) = false := by
        refine beq_eq_false_iff_ne.mpr ?_
        intro hh
        exact h (by rw [← hh]; exact beq_iff_eq.mp hp)
      rw [List.filter_cons, hp]
      simp only [Bool.not_true, Bool.false_eq_true, if_false]
      rw [ih]
      simp only [pyLookup, List.find?_cons, hk]
    · have hpb : (p.1 == bad) = false := by
        cases hbv : (p.1 == bad) with
        | false => rfl
        | true => exact absurd hbv hp
      rw [List.filter_cons, hpb]
      simp only [Bool.not_false, if_true]
      cases hk : (p.1 == k) with
      | true => simp only [pyLookup, List.find?_cons, hk]
      | false =>
        simp only [pyLookup, List.find?_cons, hk] at ih ⊢
        exact ih

theorem any_filter_bad (kvs : List (String × Json)) (bad : String) :
    ((kvs.filter (fun kv => !(kv.1 == bad))).any (fun kv => kv.1 == bad)) = false := by
  induction kvs with
  | nil => rfl
  | cons p rest ih =>
    by_cases hp : p.1 = bad
    · simp [List.filter_cons, hp, ih]
    · simp [List.filter_cons, hp, List.any_cons, ih]

theorem contentFallback_lookup_eq (kvs kvs2 : List (String × Json))
    (h : pyLookup kvs "content" = pyLookup kvs2 "content") :
    contentFallback (Json.obj kvs) = contentFallback (Json.obj kvs2) := by
  simp [contentFallback, normContent, dictGetD, h]

/-- C10: when message.images is non-empty and its first element is neither
a dict containing the key image_url nor a string, the normaliser does not
fail there: it falls through to the content inspection, and the final
result equals both the content fallback on the same message and the result
on the message with the images entry removed. -/
theorem C10_images_fallthrough (b64ok : String → Bool) (kvs : List (String × Json))
    (imgObj : Json) (rest : List Json)
    (him : pyLookup kvs "images" = some (Json.arr (imgObj :: rest)))
    (h1 : imgObj.isDictWith "image_url" = false)
    (h2 : imgObj.isStr = false) :
    normalizeE b64ok (mkChoicePayload (Json.obj kvs)) = contentFallback (Json.obj kvs) ∧
    normalizeE b64ok (mkChoicePayload
        (Json.obj (kvs.filter (fun kv => !(kv.1 == "images")))))
      = contentFallback (Json.obj kvs) := by
  constructor
  · rw [normalizeE_mkChoice_none]
    rw [imagesPart_of_lookup _ _ _ _ him, handleImageObj_none _ _ h1 h2]
  · rw [normalizeE_mkChoice_none]
    · exact contentFallback_lookup_eq _ _ (pyLookup_filter_ne kvs "images" "content" (by decide))
    · have hfalse := any_filter_bad kvs "images"
      simp only [imagesPart, pyIn]
      rw [hfalse]

/-- C10 witness: a payload whose first image entry is the number 5 falls
through to the content string. -/
theorem C10_witness :
    pyLookup [("images", Json.arr [Json.num 5]), ("content", Json.str "http://a")] "images"
      = some (Json.arr [Json.num 5]) ∧
    (Json.num 5).isDictWith "image_url" = false ∧
    (Json.num 5).isStr = false ∧
    normalizeE (fun _ => false) (mkChoicePayload
        (Json.obj [("images", Json.arr [Json.num 5]), ("content", Json.str "http://a")]))
      = contentFallback
          (Json.obj [("images", Json.arr [Json.num 5]), ("content", Json.str "http://a")]) :=
  ⟨rfl, rfl, rfl,
    (C10_images_fallthrough (fun _ => false)
      [("images", Json.arr [Json.num 5]), ("content", Json.str "http://a")]
      (Json.num 5) [] rfl rfl rfl).1⟩

/-- C4: when images[0] is a string s not starting with "data:image", the
code probes base64-decoding of the first 100 characters only: on success
the whole string s is returned as imageBase64 without re-validation, on
failure the branch yields nothing and evaluation falls through to the
content inspection. -/
theorem C4_base64_probe (b64ok : String → Bool) (kvs : List (String × Json)) (s : String)
    (rest : List Json)
    (him : pyLookup kvs "images" = some (Json.arr (Json.str s :: rest)))
    (hpre : pyStartsWith s "data:image" = false) :
    (b64ok (s.take 100) = true →
      normalizeE b64ok (mkChoicePayload (Json.obj kvs)) = .ok (.okBase64 (.str s))) ∧
    (b64ok (s.take 100) = false →
      normalizeE b64ok (mkChoicePayload (Json.obj kvs)) = contentFallback (Json.obj kvs)) := by
  constructor
  · intro hb
    rw [normalizeE_mkChoice_some]
    rw [imagesPart_of_lookup _ _ _ _ him]
    simp [handleImageObj, Json.isDictWith, Json.isStr, hpre, hb]
  · intro hb
    rw [normalizeE_mkChoice_none]
    rw [imagesPart_of_lookup _ _ _ _ him]
    simp [handleImageObj, Json.isDictWith, Json.isStr, hpre, hb]

/-- C4 witness: the probe accepting yields the whole string, the probe
rejecting falls through to the no-image failure. -/
theorem C4_witness :
    pyLookup [("images", Json.arr [Json.str "QUJD"])] "images"
      = some (Json.arr [Json.str "QUJD"]) ∧
    pyStartsWith "QUJD" "data:image" = false ∧
    normalizeE (fun _ => true) (mkChoicePayload (Json.obj [("images", Json.arr [Json.str "QUJD"])]))
      = .ok (.okBase64 (.str "QUJD")) ∧
    normalizeE (fun _ => false) (mkChoicePayload (Json.obj [("images", Json.arr [Json.str "QUJD"])]))
      = contentFallback (Json.obj [("images", Json.arr [Json.str "QUJD"])]) := by
  refine ⟨rfl, by decide, ?_, ?_⟩
  · exact (C4_base64_probe (fun _ => true) [("images", Json.arr [Json.str "QUJD"])]
      "QUJD" [] rfl (by decide)).1 rfl
  · exact (C4_base64_probe (fun _ => false) [("images", Json.arr [Json.str "QUJD"])]
      "QUJD" [] rfl (by decide)).2 rfl

/-- Upstream error message as the specification describes it: the
error.message field of the parsed JSON body when the body is a dict whose
error entry is a dict containing message, the raw response text
otherwise. -/
def upstreamMessage (text : String) (body : Option Json) : String :=
  match body with
  | some (Json.obj kvs) =>
    match pyLookup kvs "error" with
    | some (Json.obj evs) =>
      match pyLookup evs "message" with
      | some v => pyFormat v
      | none => text
    | some _ => text
    | none => text
  | _ => text

theorem errorDetail_eq_upstreamMessage (text : String) (body : Option Json) :
    errorDetail text body = upstreamMessage text body := by
  cases body with
  | none => rfl
  | some j =>
    cases j with
    | obj kvs =>
      simp only [errorDetail, upstreamMessage, dictGetD]
      cases he : pyLookup kvs "error" with
      | none => simp [he, pyFormat, pyLookup]
      | some e =>
        cases e <;> simp [he, dictGetD]
        case obj evs =>
          cases hm : pyLookup evs "message" with
          | none => simp [hm, pyFormat]
          | some v => simp [hm]
    | null => rfl
    | bool b => rfl
    | num n => rfl
    | str s => rfl
    | arr xs => rfl

/-- C2 counterexample: a 201 response (a 2xx status) with a parseable body
the normaliser succeeds on is not delegated to the normaliser but mapped to
a failure, because the code tests status_code != 200; and on a 500 response
with body error.message = "boom" the failure message is not the bare field
but carries the "API Error (500): " prefix. -/
theorem C2_counterexample :
    (200 ≤ 201 ∧ 201 < 300) ∧
    (handleResponse (fun _ => false) 201 "raw"
        (some (mkContentPayload "http://x/y.png")) "p" "x" 0).success = false ∧
    (finishNorm (normalizeE (fun _ => false) (mkContentPayload "http://x/y.png")) "x" 0).success
      = true ∧
    (handleResponse (fun _ => false) 500 "raw"
        (some (Json.obj [("error", Json.obj [("message", Json.str "boom")])])) "p" "x" 0).error
      = some "API Error (500): boom" ∧
    some "API Error (500): boom" ≠ some ("boom" : String) := by
  refine ⟨by decide, rfl, rfl, rfl, by decide⟩

/-- C2 amended: a response with status exactly 200 and a parseable JSON
body is delegated to the normaliser, whose mapped result carries the
elapsed time; any other status yields a Failure whose message is
"API Error (<status>): " followed by the body error.message field when the
body parses as JSON containing that path, else the raw response body text,
again carrying the elapsed time. -/
theorem C2_amended (b64ok : String → Bool) (status : Nat) (text : String)
    (body : Option Json) (pe xe : String) (elapsed : ℚ) :
    (status ≠ 200 →
      handleResponse b64ok status text body pe xe elapsed
        = ImageResult.mk false none none
            (some ("API Error (" ++ toString status ++ "): " ++ upstreamMessage text body))
            elapsed) ∧
    (∀ j, handleResponse b64ok 200 text (some j) pe xe elapsed
        = finishNorm (normalizeE b64ok j) xe elapsed ∧
      (finishNorm (normalizeE b64ok j) xe elapsed).generationTime = elapsed) := by
  constructor
  · intro hs
    simp [handleResponse, hs, errorDetail_eq_upstreamMessage]
  · intro j
    constructor
    · simp [handleResponse]
    · cases hr : normalizeE b64ok j with
      | error e => simp [finishNorm]
      | ok r => cases r <;> simp [finishNorm]

/-- C2 witness: the amended theorem applied to a 500 response with an
error.message body and to a 200 response with a normalisable body. -/
theorem C2_witness :
    (500 ≠ 200) ∧
    handleResponse (fun _ => false) 500 "raw"
        (some (Json.obj [("error", Json.obj [("message", Json.str "boom")])])) "p" "x" 0
      = ImageResult.mk false none none
          (some ("API Error (" ++ toString 500 ++ "): " ++ upstreamMessage "raw"
            (some (Json.obj [("error", Json.obj [("message", Json.str "boom")])])))) 0 ∧
    handleResponse (fun _ => false) 200 "raw" (some (mkContentPayload "http://x/y.png")) "p" "x" 0
      = finishNorm (normalizeE (fun _ => false) (mkContentPayload "http://x/y.png")) "x" 0 := by
  refine ⟨by decide, ?_, ?_⟩
  · exact (C2_amended (fun _ => false) 500 "raw"
      (some (Json.obj [("error", Json.obj [("message", Json.str "boom")])])) "p" "x" 0).1
      (by decide)
  · exact ((C2_amended (fun _ => false) 200 "raw" none "p" "x" 0).2
      (mkContentPayload "http://x/y.png")).1

/-- C7: every result of generate_doodle carries the elapsed time now -
start as generation_time, nonnegative whenever the clock readings are
ordered, and every success populates exactly one of image_url and
image_base64. -/
theorem C7_result_invariant (b64ok : String → Bool) (o : Outcome) (start now : ℚ)
    (h : start ≤ now) :
    ((generate_doodle b64ok o start now).success = true →
      ((generate_doodle b64ok o start now).imageUrl = none ∧
        (generate_doodle b64ok o start now).imageBase64 ≠ none) ∨
      ((generate_doodle b64ok o start now).imageUrl ≠ none ∧
        (generate_doodle b64ok o start now).imageBase64 = none)) ∧
    (generate_doodle b64ok o start now).generationTime = now - start ∧
    0 ≤ (generate_doodle b64ok o start now).generationTime := by
  have hn : (0:ℚ) ≤ now - start := by linarith
  cases o with
  | timeout => exact ⟨by intro hs; simp [generate_doodle] at hs, by simp [generate_doodle], by
      simpa [generate_doodle] using hn⟩
  | exc m => exact ⟨by intro hs; simp [generate_doodle] at hs, by simp [generate_doodle], by
      simpa [generate_doodle] using hn⟩
  | response status text body pe xe =>
    simp only [generate_doodle, handleResponse]
    by_cases hs : status ≠ 200
    · simp [hs, hn]
    · simp only [hs, if_false]
      cases body with
      | none => simp [hn]
      | some j =>
        cases hr : normalizeE b64ok j with
        | error e => simp [finishNorm, hr, hn]
        | ok r => cases r <;> simp [finishNorm, hr, hn]

/-- C7 witness: the invariant at a concrete timeout outcome. -/
theorem C7_witness :
    (0:ℚ) ≤ 1 ∧
    (generate_doodle (fun _ => false) Outcome.timeout 0 1).generationTime = 1 - 0 := by
  constructor
  · decide
  · exact (C7_result_invariant (fun _ => false) Outcome.timeout 0 1 (by decide)).2.1

theorem check_rate_limit_admit (cfg : RateConfig) (st : String → List ℚ) (ip : String)
    (now : ℚ)
    (hkeep : ∀ t ∈ st ip, now - t < cfg.rateLimitPeriod)
    (hlen : (st ip).length < cfg.rateLimitRequests) :
    check_rate_limit cfg st ip now = (true, updateStore st ip (st ip ++ [now])) := by
  have hf : (st ip).filter (fun t => now - t < cfg.rateLimitPeriod) = st ip := by
    apply List.filter_eq_self.mpr
    intro a ha
    simpa using hkeep a ha
  simp only [check_rate_limit, hf]
  rw [if_neg (by omega)]

theorem admitSeq_window (cfg : RateConfig) (ip : String) (base : ℚ) :
    ∀ (todo : List ℚ) (st : String → List ℚ),
      (∀ t ∈ st ip ++ todo, base ≤ t ∧ t - base < cfg.rateLimitPeriod) →
      (st ip).length + todo.length ≤ cfg.rateLimitRequests →
      (admitSeq cfg st (todo.map (fun t => (ip, t)))).2 = List.replicate todo.length true ∧
      (admitSeq cfg st (todo.map (fun t => (ip, t)))).1 ip = st ip ++ todo := by
  intro todo
  induction todo with
  | nil =>
    intro st hw hl
    simp [admitSeq]
  | cons now todo ih =>
    intro st hw hl
    have hbase_now : base ≤ now ∧ now - base < cfg.rateLimitPeriod := by
      apply hw
      simp
    have hkeep : ∀ t ∈ st ip, now - t < cfg.rateLimitPeriod := by
      intro t ht
      have hbt := hw t (by simp [ht])
      linarith [hbt.1, hbase_now.2]
    have hlen : (st ip).length < cfg.rateLimitRequests := by
      simp only [List.length_cons] at hl
      omega
    have hstep := check_rate_limit_admit cfg st ip now hkeep hlen
    have hip : (updateStore st ip (st ip ++ [now])) ip = st ip ++ [now] := by
      simp [updateStore]
    have hw2 : ∀ t ∈ (updateStore st ip (st ip ++ [now])) ip ++ todo,
        base ≤ t ∧ t - base < cfg.rateLimitPeriod := by
      intro t ht
      rw [hip] at ht
      apply hw
      simp only [List.append_assoc, List.singleton_append] at ht
      exact ht
    have hl2 : ((updateStore st ip (st ip ++ [now])) ip).length + todo.length
        ≤ cfg.rateLimitRequests := by
      rw [hip]
      simp only [List.length_append, List.length_cons] at hl ⊢
      simp only [List.length_nil, List.length_cons] at hl ⊢
      omega
    obtain ⟨hb, hs⟩ := ih (updateStore st ip (st ip ++ [now])) hw2 hl2
    constructor
    · simp only [List.map_cons, admitSeq, hstep, hb]
      rfl
    · simp only [List.map_cons, admitSeq, hstep, hs, hip]
      simp

theorem admitSeq_append (cfg : RateConfig) (l1 l2 : List (String × ℚ)) :
    ∀ st, admitSeq cfg st (l1 ++ l2)
      = ((admitSeq cfg (admitSeq cfg st l1).1 l2).1,
         (admitSeq cfg st l1).2 ++ (admitSeq cfg (admitSeq cfg st l1).1 l2).2) := by
  induction l1 with
  | nil =>
    intro st
    simp [admitSeq]
  | cons p rest ih =>
    intro st
    cases p with
    | mk ip t => simp [admitSeq, ih]

theorem strContains_iff (hay needle : String) :
    strContains hay needle = true ↔ needle.data <:+: hay.data := by
  unfold strContains
  rw [List.any_eq_true]
  constructor
  · rintro ⟨t, ht, hp⟩
    exact List.infix_iff_prefix_suffix.mpr
      ⟨t, List.isPrefixOf_iff_prefix.mp hp, (List.mem_tails _ _).mp ht⟩
  · intro h
    obtain ⟨t, hpre, hsuf⟩ := List.infix_iff_prefix_suffix.mp h
    exact ⟨t, (List.mem_tails _ _).mpr hsuf, List.isPrefixOf_iff_prefix.mpr hpre⟩

theorem strContains_append_right (s t needle : String)
    (h : strContains t needle = true) : strContains (s ++ t) needle = true := by
  rw [strContains_iff] at h ⊢
  rw [String.data_append]
  obtain ⟨u, v, huv⟩ := h
  exact ⟨s.data ++ u, v, by rw [← huv]; simp⟩

/-- C3: the admission step of check_rate_limit behaves exactly as
specified on the pruned timestamp list, and consequently, for positive
limit N and window W, a run of N + 1 calls of one client whose times are
ordered and all within W seconds of the first admits the first N calls and
rejects the last one. -/
theorem C3_rate_limit (cfg : RateConfig) (hN : 0 < cfg.rateLimitRequests)
    (hW : 0 < cfg.rateLimitPeriod) :
    (∀ (st : String → List ℚ) (ip : String) (now : ℚ),
      (cfg.rateLimitRequests ≤ ((st ip).filter (fun t => now - t < cfg.rateLimitPeriod)).length →
        check_rate_limit cfg st ip now
          = (false, updateStore st ip
              ((st ip).filter (fun t => now - t < cfg.rateLimitPeriod)))) ∧
      (((st ip).filter (fun t => now - t < cfg.rateLimitPeriod)).length < cfg.rateLimitRequests →
        check_rate_limit cfg st ip now
          = (true, updateStore st ip
              (((st ip).filter (fun t => now - t < cfg.rateLimitPeriod)) ++ [now])))) ∧
    (∀ (ip : String) (t1 : ℚ) (rest : List ℚ),
      (t1 :: rest).length = cfg.rateLimitRequests + 1 →
      List.Sorted (· ≤ ·) (t1 :: rest) →
      (∀ t ∈ rest, t - t1 < cfg.rateLimitPeriod) →
      (admitSeq cfg (fun _ => []) ((t1 :: rest).map (fun t => (ip, t)))).2
        = List.replicate cfg.rateLimitRequests true ++ [false]) := by
  constructor
  · intro st ip now
    constructor
    · intro hge
      simp only [check_rate_limit]
      rw [if_pos hge]
    · intro hlt
      simp only [check_rate_limit]
      rw [if_neg (by omega)]
  · intro ip t1 rest hlen hsorted hwin
    set N := cfg.rateLimitRequests with hNdef
    set ts := t1 :: rest with htsdef
    have hmem_ts : ∀ t ∈ ts, t1 ≤ t ∧ t - t1 < cfg.rateLimitPeriod := by
      intro t ht
      rcases List.mem_cons.mp ht with h | h
      · subst h
        exact ⟨le_refl _, by linarith⟩
      · exact ⟨(List.sorted_cons.mp hsorted).1 t h, hwin t h⟩
    have hlents : ts.length = N + 1 := hlen
    have hdrop1 : (ts.drop N).length = 1 := by
      rw [List.length_drop, hlents]
      omega
    obtain ⟨tl, htl⟩ := List.length_eq_one.mp hdrop1
    have htlmem : tl ∈ ts := by
      have : tl ∈ ts.drop N := by simp [htl]
      exact List.drop_subset N ts this
    have htake_len : (ts.take N).length = N := by
      rw [List.length_take, hlents]
      omega
    have hsplitmap : ts.map (fun t => (ip, t))
        = (ts.take N).map (fun t => (ip, t)) ++ [(ip, tl)] := by
      conv =>
        lhs
        rw [← List.take_append_drop N ts]
      rw [htl, List.map_append]
      rfl
    have hwindow : ∀ t ∈ ((fun _ => ([] : List ℚ)) ip) ++ ts.take N,
        t1 ≤ t ∧ t - t1 < cfg.rateLimitPeriod := by
      intro t ht
      simp only [List.nil_append] at ht
      exact hmem_ts t (List.take_subset N ts ht)
    have hcount : (((fun _ => ([] : List ℚ)) ip)).length + (ts.take N).length ≤ N := by
      simp [htake_len]
    obtain ⟨hb1, hs1⟩ := admitSeq_window cfg ip t1 (ts.take N) (fun _ => []) hwindow hcount
    have hs1ip : (admitSeq cfg (fun _ => []) ((ts.take N).map (fun t => (ip, t)))).1 ip
        = ts.take N := by
      rw [hs1]
      rfl
    have hkeepall :
        ((admitSeq cfg (fun _ => []) ((ts.take N).map (fun t => (ip, t)))).1 ip).filter
          (fun t => tl - t < cfg.rateLimitPeriod)
        = (admitSeq cfg (fun _ => []) ((ts.take N).map (fun t => (ip, t)))).1 ip := by
      apply List.filter_eq_self.mpr
      intro a ha
      rw [hs1ip] at ha
      have ha2 := hmem_ts a (List.take_subset N ts ha)
      have htl2 := hmem_ts tl htlmem
      simp only [decide_eq_true_eq]
      linarith [ha2.1, htl2.2]
    have hreject :
        (check_rate_limit cfg
          ((admitSeq cfg (fun _ => []) ((ts.take N).map (fun t => (ip, t)))).1) ip tl).1
        = false := by
      simp only [check_rate_limit, hkeepall]
      rw [if_pos (by rw [hs1ip, htake_len])]
    rw [hsplitmap, admitSeq_append, hb1, htake_len]
    simp only [admitSeq, hreject]

/-- C3 witness: with a limit of 2 and a window of 10 seconds, three calls
at times 0, 1, 2 admit twice and reject the third. -/
theorem C3_witness :
    0 < (2:ℕ) ∧ (0:ℚ) < 10 ∧
    (admitSeq (RateConfig.mk 2 10) (fun _ => [])
        (((0:ℚ) :: [1, 2]).map (fun t => ("a", t)))).2
      = List.replicate 2 true ++ [false] := by
  refine ⟨by decide, by norm_num, ?_⟩
  refine (C3_rate_limit (RateConfig.mk 2 10) (by decide) (by norm_num)).2 "a" 0 [1, 2]
    (by decide) ?_ ?_
  · simp [List.sorted_cons]
  · intro t ht
    fin_cases ht <;> norm_num

/-- C9: an admit call of client a leaves the stored timestamp list of any
other client b unchanged, and its decision does not depend on anything but
the timestamps of a. -/
theorem C9_independence (cfg : RateConfig) (st st2 : String → List ℚ) (a b : String)
    (now : ℚ) (hab : a ≠ b) (hsame : st a = st2 a) :
    (check_rate_limit cfg st a now).2 b = st b ∧
    (check_rate_limit cfg st a now).1 = (check_rate_limit cfg st2 a now).1 := by
  constructor
  · simp only [check_rate_limit]
    split <;> simp [updateStore, Ne.symm hab]
  · simp only [check_rate_limit, hsame]
    by_cases hc : cfg.rateLimitRequests
        ≤ ((st2 a).filter (fun t => now - t < cfg.rateLimitPeriod)).length
    · rw [if_pos hc, if_pos hc]
    · rw [if_neg hc, if_neg hc]

/-- C9 witness: a concrete pair of distinct clients, with a second store
that differs only in the history of the other client. -/
theorem C9_witness :
    ("a" : String) ≠ "b" ∧
    (check_rate_limit (RateConfig.mk 1 1) (fun _ => []) "a" 0).2 "b" = [] ∧
    (check_rate_limit (RateConfig.mk 1 1) (fun _ => []) "a" 0).1
      = (check_rate_limit (RateConfig.mk 1 1)
          (fun x => if x = "b" then [0] else []) "a" 0).1 := by
  refine ⟨by decide, ?_, ?_⟩
  · exact (C9_independence (RateConfig.mk 1 1) (fun _ => [])
      (fun x => if x = "b" then [0] else []) "a" "b" 0 (by decide) rfl).1
  · exact (C9_independence (RateConfig.mk 1 1) (fun _ => [])
      (fun x => if x = "b" then [0] else []) "a" "b" 0 (by decide) rfl).2

/-- C8 counterexample: the 429 message is a constant in the configured
window: with a window of 60 seconds it is identical to the message for a
window of 3600 seconds and contains no "60", while the endpoint does reject
with it; so the message does not state the configured window period. -/
theorem C8_counterexample :
    rateLimitDetail (RateConfig.mk 10 60) = rateLimitDetail (RateConfig.mk 10 3600) ∧
    strContains (rateLimitDetail (RateConfig.mk 10 60)) "60" = false ∧
    (endpointGate (RateConfig.mk 10 60) (fun _ => List.replicate 10 0) "c" 0).1
      = some (HttpError.mk 429 (rateLimitDetail (RateConfig.mk 10 60))) := by
  refine ⟨rfl, by decide, ?_⟩
  have hq : ((0:ℚ) - 0 < 60) := by norm_num
  simp [endpointGate, check_rate_limit, hq]

/-- C8 amended: whenever the rate limiter rejects, the endpoint responds
with status 429 and a message that states the configured request limit;
the window is rendered only as the fixed phrase "requests per hour",
matching the configured period just when it is 3600 seconds. -/
theorem C8_amended (cfg : RateConfig) (st : String → List ℚ) (ip : String) (now : ℚ)
    (h : (check_rate_limit cfg st ip now).1 = false) :
    (endpointGate cfg st ip now).1 = some (HttpError.mk 429 (rateLimitDetail cfg)) ∧
    rateLimitDetail cfg
      = "Rate limit exceeded. Maximum " ++ toString cfg.rateLimitRequests
        ++ " requests per hour." ∧
    strContains (rateLimitDetail cfg) (toString cfg.rateLimitRequests) = true ∧
    strContains (rateLimitDetail cfg) "requests per hour" = true := by
  refine ⟨?_, rfl, ?_, ?_⟩
  · simp [endpointGate, h]
  · rw [strContains_iff]
    show (toString cfg.rateLimitRequests).data <:+:
      ("Rate limit exceeded. Maximum " ++ toString cfg.rateLimitRequests
        ++ " requests per hour.").data
    simp only [String.data_append]
    exact List.infix_append _ _ _
  · apply strContains_append_right
    decide

/-- C8 witness: the amended theorem at a full window of ten timestamps. -/
theorem C8_witness :
    (check_rate_limit (RateConfig.mk 10 60) (fun _ => List.replicate 10 0) "c" 0).1 = false ∧
    (endpointGate (RateConfig.mk 10 60) (fun _ => List.replicate 10 0) "c" 0).1
      = some (HttpError.mk 429 (rateLimitDetail (RateConfig.mk 10 60))) := by
  have h : (check_rate_limit (RateConfig.mk 10 60) (fun _ => List.replicate 10 0) "c" 0).1
      = false := by
    have hq : ((0:ℚ) - 0 < 60) := by norm_num
    simp [check_rate_limit, hq]
  exact ⟨h, (C8_amended (RateConfig.mk 10 60) (fun _ => List.replicate 10 0) "c" 0 h).1⟩

theorem infix_append_split {M x y : List Char} (h : M <:+: x ++ y) :
    M <:+: x ∨ M <:+: y ∨
    ∃ m1 m2, M = m1 ++ m2 ∧ m1 ≠ [] ∧ m2 ≠ [] ∧ m1 <:+ x ∧ m2 <+: y := by
  obtain ⟨s, t, hst⟩ := h
  by_cases hA : s.length + M.length ≤ x.length
  · left
    have h1 : (s ++ M ++ t).take x.length = x := by
      rw [hst]
      exact List.take_left x y
    set j := x.length - (s.length + M.length) with hjdef
    have h3 : x.length = (s ++ M).length + j := by
      simp only [List.length_append]
      omega
    have hx : x = (s ++ M) ++ t.take j := by
      rw [← h1, h3, List.take_append]
    exact ⟨s, t.take j, hx.symm⟩
  · by_cases hB : x.length ≤ s.length
    · right
      left
      have h1 : (s ++ M ++ t).drop x.length = y := by
        rw [hst]
        exact List.drop_left x y
      have hy : y = s.drop x.length ++ M ++ t := by
        rw [← h1, List.append_assoc, List.drop_append_of_le_length hB, List.append_assoc]
      exact ⟨s.drop x.length, t, hy.symm⟩
    · right
      right
      push_neg at hA hB
      set k := x.length - s.length with hkdef
      have hk0 : 0 < k := by omega
      have hkM : k < M.length := by omega
      have h3 : x.length = s.length + k := by omega
      refine ⟨M.take k, M.drop k, (List.take_append_drop _ M).symm, ?_, ?_, ?_, ?_⟩
      · apply List.ne_nil_of_length_pos
        rw [List.length_take]
        omega
      · apply List.ne_nil_of_length_pos
        rw [List.length_drop]
        omega
      · have h1 : (s ++ M ++ t).take x.length = x := by
          rw [hst]
          exact List.take_left x y
        have hx : x = s ++ M.take k := by
          rw [← h1, List.append_assoc, h3, List.take_append,
            List.take_append_of_le_length (le_of_lt hkM)]
        exact ⟨s, hx.symm⟩
      · have h1 : (s ++ M ++ t).drop x.length = y := by
          rw [hst]
          exact List.drop_left x y
        have hy : y = M.drop k ++ t := by
          rw [← h1, List.append_assoc, h3, List.drop_append,
            List.drop_append_of_le_length (le_of_lt hkM)]
        exact ⟨t, hy.symm⟩

/-- Check that no nonempty prefix of M is a suffix of t: an occurrence of M
in an append cannot begin inside t. -/
def noSpanLeft (M t : List Char) : Bool :=
  (List.range M.length).all (fun k => !((M.take (k + 1)).isSuffixOf t))

theorem noSpanLeft_sound (M t : List Char) (h : noSpanLeft M t = true) :
    ∀ m1 m2, M = m1 ++ m2 → m1 ≠ [] → m2 ≠ [] → ¬ m1 <:+ t := by
  intro m1 m2 hM h1 h2 hsuf
  have hlen1 : 0 < m1.length := List.length_pos.mpr h1
  have hlen2 : 0 < m2.length := List.length_pos.mpr h2
  have hlenM : M.length = m1.length + m2.length := by
    rw [hM, List.length_append]
  have hm1 : m1 = M.take m1.length := by
    rw [hM, List.take_left]
  have hk : m1.length - 1 < M.length := by omega
  have hall := List.all_eq_true.mp h (m1.length - 1) (List.mem_range.mpr hk)
  have heq : M.take (m1.length - 1 + 1) = m1 := by
    rw [show m1.length - 1 + 1 = m1.length from by omega]
    exact hm1.symm
  rw [heq] at hall
  rw [List.isSuffixOf_iff_suffix.mpr hsuf] at hall
  simp at hall

theorem span_newline (M y : List Char) (hnl : M.all (fun c => c != '\x0a') = true)
    (hy : y.head? = some '\x0a') :
    ∀ m1 m2, M = m1 ++ m2 → m2 ≠ [] → ¬ m2 <+: y := by
  intro m1 m2 hM h2 hpre
  cases m2 with
  | nil => exact h2 rfl
  | cons d tl =>
    obtain ⟨u, hu⟩ := hpre
    have hd : d = '\x0a' := by
      rw [← hu] at hy
      simpa using hy
    have hdM : d ∈ M := by
      rw [hM]
      simp
    have hc := List.all_eq_true.mp hnl d hdM
    rw [hd] at hc
    simp at hc

theorem not_infix_append_of {M x y : List Char}
    (hx : ¬ M <:+: x)
    (hspan : ∀ m1 m2, M = m1 ++ m2 → m1 ≠ [] → m2 ≠ [] → ¬ (m1 <:+ x ∧ m2 <+: y))
    (hy : ¬ M <:+: y) : ¬ M <:+: x ++ y := by
  intro h
  rcases infix_append_split h with h | h | ⟨m1, m2, hM, h1, h2, hsx, hpy⟩
  · exact hx h
  · exact hy h
  · exact hspan m1 m2 hM h1 h2 ⟨hsx, hpy⟩

theorem not_infix_of_strContains_false {hay needle : String}
    (h : strContains hay needle = false) : ¬ needle.data <:+: hay.data := by
  intro hi
  rw [← strContains_iff hay needle, h] at hi
  exact Bool.false_ne_true hi

theorem strContains_of_middle (pre mid post hay : String) (h : hay = pre ++ mid ++ post) :
    strContains hay mid = true := by
  rw [strContains_iff, h]
  simp only [String.data_append]
  exact List.infix_append _ _ _

set_option maxRecDepth 100000 in
/-- C6 counterexample: the style paragraph is guarded by Python truthiness,
so the non-null empty style hint produces no "ADDITIONAL STYLE DIRECTION"
paragraph; and an occasion that itself contains the marker makes the
null-hint output contain it. -/
theorem C6_counterexample :
    (some "" : Option String) ≠ none ∧
    strContains (create_doodle_prompt "X" (some "")) "ADDITIONAL STYLE DIRECTION" = false ∧
    strContains (create_doodle_prompt "ADDITIONAL STYLE DIRECTION" none)
      "ADDITIONAL STYLE DIRECTION" = true := by
  refine ⟨by decide, by decide, by decide⟩

set_option maxRecDepth 100000 in
/-- C6 amended: for every occasion and every non-null, non-empty styleHint
the prompt is the fixed template with the occasion embedded verbatim twice
(title line and visual-elements line), an "ADDITIONAL STYLE DIRECTION"
paragraph containing the hint verbatim, and the closing paragraph last; for
styleHint null (or empty) the style paragraph is absent, and the output
contains "ADDITIONAL STYLE DIRECTION" nowhere provided the occasion itself
does not contain that marker. -/
theorem C6_amended (occasion : String) (styleHint : Option String) :
    (pyTruthy styleHint = true →
      create_doodle_prompt occasion styleHint
        = promptPart1 ++ occasion ++ promptPart2 ++ occasion ++ promptPart3
          ++ "\n\nADDITIONAL STYLE DIRECTION: " ++ styleHint.getD "" ++ promptClosing ∧
      strContains (create_doodle_prompt occasion styleHint)
        ("ADDITIONAL STYLE DIRECTION: " ++ styleHint.getD "") = true) ∧
    (styleHint = none →
      create_doodle_prompt occasion none
        = promptPart1 ++ occasion ++ promptPart2 ++ occasion ++ promptPart3 ++ promptClosing ∧
      (strContains occasion "ADDITIONAL STYLE DIRECTION" = false →
        strContains (create_doodle_prompt occasion none)
          "ADDITIONAL STYLE DIRECTION" = false)) := by
  constructor
  · intro h
    have hstruct : create_doodle_prompt occasion styleHint
        = promptPart1 ++ occasion ++ promptPart2 ++ occasion ++ promptPart3
          ++ "\n\nADDITIONAL STYLE DIRECTION: " ++ styleHint.getD "" ++ promptClosing := by
      simp [create_doodle_prompt, h]
    refine ⟨hstruct, ?_⟩
    apply strContains_of_middle
      (promptPart1 ++ occasion ++ promptPart2 ++ occasion ++ promptPart3 ++ "\n\n")
      _ promptClosing
    rw [hstruct]
    apply String.ext
    simp [String.data_append, List.append_assoc]
  · intro hnone
    subst hnone
    have hstruct : create_doodle_prompt occasion none
        = promptPart1 ++ occasion ++ promptPart2 ++ occasion ++ promptPart3
          ++ promptClosing := by
      simp [create_doodle_prompt, pyTruthy]
    refine ⟨hstruct, ?_⟩
    intro h0
    have hocc : ¬ ("ADDITIONAL STYLE DIRECTION" : String).data <:+: occasion.data :=
      not_infix_of_strContains_false h0
    rw [hstruct, Bool.eq_false_iff]
    intro hcon
    rw [strContains_iff] at hcon
    have hshape : (promptPart1 ++ occasion ++ promptPart2 ++ occasion ++ promptPart3
          ++ promptClosing).data
        = promptPart1.data ++ (occasion.data ++ (promptPart2.data
            ++ (occasion.data ++ (promptPart3 ++ promptClosing).data))) := by
      simp [List.append_assoc]
    rw [hshape] at hcon
    have hM_nl : ("ADDITIONAL STYLE DIRECTION" : String).data.all (fun c => c != '\x0a')
        = true := by decide
    have hhead2 : (promptPart2.data ++ (occasion.data
        ++ (promptPart3 ++ promptClosing).data)).head? = some '\x0a' := by
      rw [List.head?_append]
      have hp2 : promptPart2.data.head? = some '\x0a' := by decide
      rw [hp2]
      rfl
    have hhead4 : ((promptPart3 ++ promptClosing) : String).data.head? = some '\x0a' := by
      decide
    exact not_infix_append_of
      (not_infix_of_strContains_false (by decide))
      (fun m1 m2 hM h1 h2 hand =>
        noSpanLeft_sound ("ADDITIONAL STYLE DIRECTION" : String).data promptPart1.data
          (by decide) m1 m2 hM h1 h2 hand.1)
      (not_infix_append_of
        hocc
        (fun m1 m2 hM h1 h2 hand => span_newline _ _ hM_nl hhead2 m1 m2 hM h2 hand.2)
        (not_infix_append_of
          (not_infix_of_strContains_false (by decide))
          (fun m1 m2 hM h1 h2 hand =>
            noSpanLeft_sound ("ADDITIONAL STYLE DIRECTION" : String).data promptPart2.data
              (by decide) m1 m2 hM h1 h2 hand.1)
          (not_infix_append_of
            hocc
            (fun m1 m2 hM h1 h2 hand => span_newline _ _ hM_nl hhead4 m1 m2 hM h2 hand.2)
            (not_infix_of_strContains_false (by decide)))))
      hcon

set_option maxRecDepth 100000 in
/-- C6 witness: the amended theorem at the occasions of the specification
tests. -/
theorem C6_witness :
    pyTruthy (some "neon colors") = true ∧
    strContains (create_doodle_prompt "Launch Day" (some "neon colors"))
      ("ADDITIONAL STYLE DIRECTION: " ++ (some "neon colors").getD "") = true ∧
    strContains "Launch Day" "ADDITIONAL STYLE DIRECTION" = false ∧
    strContains (create_doodle_prompt "Launch Day" none) "ADDITIONAL STYLE DIRECTION"
      = false := by
  refine ⟨by decide, ?_, by decide, ?_⟩
  · exact ((C6_amended "Launch Day" (some "neon colors")).1 (by decide)).2
  · exact ((C6_amended "Launch Day" none).2 rfl).2 (by decide)
